import Mathlib

/-!
Verification of the core utility components of the Telegram learning bot:
the text segmenter `split_message` and delivery formatter `safe_send_message`
from `utils.py`, and the sliding-window rate limiter
`UserService.check_rate_limit` from `user_service.py`.

Strings are modelled as `List Char` internally (one entry per code point,
matching Python `len`), with `String` wrappers for the claim-facing
operations.  The wall clock consumed via `time.time()` is passed explicitly
as a rational number, and the process-wide rate-limit dictionary is modelled
as a total function from user id to timestamp list (a missing key reads as
the empty list, matching the lazy initialisation in the source).
-/

/-- Python `str.split` with a two-character separator `a ++ b`,
scanning left to right without overlap (mirrors `text.split('\n\n')`
and `paragraph.split('. ')` in `utils.py`). -/
def split2 (a b : Char) : List Char → List (List Char)
  | [] => [[]]
  | [c] => [[c]]
  | c :: d :: rest =>
    if c = a ∧ d = b then
      [] :: split2 a b rest
    else
      match split2 a b (d :: rest) with
      | [] => [[c]]
      | s :: ss => (c :: s) :: ss

/-- Python `sep.join` for a two-character separator `a ++ b`. -/
def join2 (a b : Char) : List (List Char) → List Char
  | [] => []
  | [s] => s
  | s :: ss => s ++ a :: b :: join2 a b ss

/-- Fixed-size slicing with explicit fuel, mirroring
`[paragraph[i:i+max_length] for i in range(0, len(paragraph), max_length)]`
(faithful whenever `n >= 1`; the Python comprehension raises for step 0). -/
def chunksOfFuel (n : Nat) : Nat → List Char → List (List Char)
  | 0, _ => []
  | _ + 1, [] => []
  | fuel + 1, l => l.take n :: chunksOfFuel n fuel (l.drop n)

/-- Fixed-size slices of a character list (`range(0, len(l), n)` slicing). -/
def chunksOf (n : Nat) (l : List Char) : List (List Char) :=
  chunksOfFuel n l.length l

/-- State of the splitting loops in `split_message`: the chunks accumulated
so far together with the running `current_chunk`. -/
abbrev SplitState := List (List Char) × List Char

/-- Body of the inner sentence loop of `split_message`
(`for sentence in sentences: ...`, `utils.py` lines 112-125).  Note the
source slices the whole `paragraph`, not the current sentence, in the raw
tier, and leaves `current_chunk` empty there. -/
def sentenceStep (maxLength : Nat) (paragraph : List Char) (st : SplitState)
    (sentence : List Char) : SplitState :=
  if st.2.length + sentence.length + 2 > maxLength then
    if st.2 = [] then
      (st.1 ++ chunksOf maxLength paragraph, st.2)
    else
      (st.1 ++ [st.2], sentence ++ ['.', ' '])
  else
    (st.1, st.2 ++ sentence ++ ['.', ' '])

/-- Body of the outer paragraph loop of `split_message`
(`for paragraph in paragraphs: ...`, `utils.py` lines 103-130). -/
def paragraphStep (maxLength : Nat) (st : SplitState) (paragraph : List Char) :
    SplitState :=
  if st.2.length + paragraph.length + 2 > maxLength then
    if st.2 = [] then
      (split2 '.' ' ' paragraph).foldl (sentenceStep maxLength paragraph) st
    else
      (st.1 ++ [st.2], paragraph)
  else
    if st.2 = [] then
      (st.1, paragraph)
    else
      (st.1, st.2 ++ '\n' :: '\n' :: paragraph)

/-- Final flush of `current_chunk` after the paragraph loop
("Add the last chunk if it exists", `utils.py` lines 132-134). -/
def finalize (st : SplitState) : List (List Char) :=
  if st.2 = [] then st.1 else st.1 ++ [st.2]

/-- Embedding of `utils.split_message` on character lists. -/
def splitMessageL (text : List Char) (maxLength : Nat) : List (List Char) :=
  if text.length ≤ maxLength then [text]
  else
    finalize ((split2 '\n' '\n' text).foldl (paragraphStep maxLength) ([], []))

/-- Embedding of `utils.split_message`: split a message into chunks intended
to fit within the transport limit. -/
def split_message (text : String) (maxLength : Nat) : List String :=
  (splitMessageL text.data maxLength).map (fun l => ⟨l⟩)

/-- Process-wide rate-limit table `UserService._rate_limits`, modelled as a
total function (an absent key reads as the empty list, matching the lazy
initialisation at `user_service.py` lines 148-149). -/
abbrev RateLimits := Int → List ℚ

/-- Embedding of `UserService.check_rate_limit` with the clock value
(`time.time()`) passed explicitly; returns the decision together with the
updated table. -/
def check_rate_limit (now : ℚ) (userId limit : Int) (timeWindow : ℚ)
    (m : RateLimits) : Bool × RateLimits :=
  let timestamps := (m userId).filter (fun ts => decide (now - ts < timeWindow))
  if (timestamps.length : ℤ) ≥ limit then
    (false, fun i => if i = userId then timestamps else m i)
  else
    (true, fun i => if i = userId then timestamps ++ [now] else m i)

/-- The five decisions of the sliding-window scenario: a fresh identity,
`limit = 3`, `time_window = 60`, four checks at time 0 and a fifth after the
clock advances to 61. -/
def rlTrace : List Bool :=
  let m0 : RateLimits := fun _ => []
  let r1 := check_rate_limit 0 7 3 60 m0
  let r2 := check_rate_limit 0 7 3 60 r1.2
  let r3 := check_rate_limit 0 7 3 60 r2.2
  let r4 := check_rate_limit 0 7 3 60 r3.2
  let r5 := check_rate_limit 61 7 3 60 r4.2
  [r1.1, r2.1, r3.1, r4.1, r5.1]

/-- Outcome of one transport `send_message` call: success, a `BadRequest`
formatting rejection, or any other exception. -/
inductive SendOutcome
  | success
  | badRequest
  | otherError
deriving DecidableEq

/-- The arguments of one transport call that the fallback logic varies:
the text sent and the parse mode attached (none for plain text). -/
structure SendCall where
  text : String
  parse_mode : Option String
deriving DecidableEq

/-- The characters escaped by `utils.sanitize_markdown`, in source order. -/
def escapeChars : List Char :=
  ['_', '*', '[', ']', '(', ')', '~', Char.ofNat 96, '>', '#', '+', '-', '=',
   '|', Char.ofNat 123, Char.ofNat 125, '.', '!']

/-- Python `text.replace(char, "\\" + char)` for a single-character
pattern: every occurrence expands to backslash followed by the character. -/
def replaceEscape (c : Char) (l : List Char) : List Char :=
  (l.map (fun x => if x = c then ['\\', c] else [x])).flatten

/-- Embedding of `utils.sanitize_markdown`: sequentially escape every
reserved character. -/
def sanitize_markdown (text : String) : String :=
  if text = "" then ""
  else ⟨escapeChars.foldl (fun acc c => replaceEscape c acc) text.data⟩

/-- The character class removed by the plain-text fallback
`re.sub(r'[*_`[\]()]', '', text)`. -/
def stripChars : List Char := ['*', '_', Char.ofNat 96, '[', ']', '(', ')']

/-- Embedding of the plain-text fallback substitution: remove every
markup-significant character. -/
def stripMarkdown (text : String) : String :=
  ⟨text.data.filter (fun c => decide (c ∉ stripChars))⟩

/-- Embedding of `utils.safe_send_message`.  The transport stub gives the
outcome of each successive call; the result records the returned boolean
(`none` models a non-`BadRequest` exception propagating out of tier 1 or 2,
which the source does not catch) together with the calls issued. -/
def safe_send_message (transport : Nat → SendOutcome) (hasChat : Bool)
    (text : String) (parse_mode : Option String) :
    Option Bool × List SendCall :=
  if hasChat = false then (some false, [])
  else
    let call1 : SendCall := ⟨text, parse_mode⟩
    match transport 0 with
    | .success => (some true, [call1])
    | .otherError => (none, [call1])
    | .badRequest =>
      if parse_mode = some "Markdown" then
        let call2 : SendCall := ⟨sanitize_markdown text, some "MarkdownV2"⟩
        match transport 1 with
        | .success => (some true, [call1, call2])
        | .otherError => (none, [call1, call2])
        | .badRequest =>
          let call3 : SendCall := ⟨stripMarkdown text, none⟩
          match transport 2 with
          | .success => (some true, [call1, call2, call3])
          | _ => (some false, [call1, call2, call3])
      else
        let call3 : SendCall := ⟨stripMarkdown text, none⟩
        match transport 1 with
        | .success => (some true, [call1, call3])
        | _ => (some false, [call1, call3])

/-- Transport stub failing all three tiers: formatting rejections on the two
rich attempts, then a generic failure on the plain attempt. -/
def stubAllFail : Nat → SendOutcome :=
  fun n => if n < 2 then .badRequest else .otherError

/-- Transport stub succeeding on the first attempt. -/
def stubFirstOk : Nat → SendOutcome := fun _ => .success

/-- Transport stub rejecting the first attempt and succeeding on the second. -/
def stubSecondOk : Nat → SendOutcome :=
  fun n => if n = 0 then .badRequest else .success

/-- Transport stub rejecting the first two attempts and succeeding on the
third. -/
def stubThirdOk : Nat → SendOutcome :=
  fun n => if n < 2 then .badRequest else .success

/-- C1: the segmentation size bound fails on the code as written: splitting
the text consisting of the paragraph "a", a blank line, and a paragraph of
ten b characters, with max_length = 5, returns ["a", "bbbbbbbbbb"], whose
second chunk has length 10 > 5 (an oversized paragraph assigned to
current_chunk while it was nonempty is never re-split). -/
theorem split_size_bound_violation :
    split_message "a\n\nbbbbbbbbbb" 5 = ["a", "bbbbbbbbbb"] ∧
    ¬ (∀ c ∈ split_message "a\n\nbbbbbbbbbb" 5, c.length ≤ 5) := by
  decide

/-- C2 counterexample: for the single-paragraph text "aaaa. bbbb" with
max_length = 7 the chunks are ["aaaa. ", "bbbb. "]; no reinsertion of the
splitting separators recovers the input, because the sentence tier appends
". " even after the final sentence. -/
theorem split_round_trip_cex :
    split_message "aaaa. bbbb" 7 = ["aaaa. ", "bbbb. "] ∧
    String.join (split_message "aaaa. bbbb" 7) ≠ "aaaa. bbbb" ∧
    String.intercalate ". " (split_message "aaaa. bbbb" 7) ≠ "aaaa. bbbb" ∧
    String.intercalate "\n\n" (split_message "aaaa. bbbb" 7) ≠ "aaaa. bbbb" := by
  decide

/-- C3: for a fresh identity with limit 3 and window 60, three immediate
checks are admitted, the fourth immediate check is rejected, and a fifth
check after the clock advances by 61 seconds is admitted again. -/
theorem rate_limit_sliding_window :
    rlTrace = [true, true, true, false, true] := by
  norm_num [rlTrace, check_rate_limit]

/-- C10: splitting the empty string returns the single-element list [""]
for every max_length at least 1. -/
theorem split_empty (maxLength : Nat) (h : 1 ≤ maxLength) :
    split_message "" maxLength = [""] := by
  unfold split_message splitMessageL
  simp [String.data]

/-- Witness for `split_empty` at max_length = 1. -/
theorem split_empty_witness : split_message "" 1 = [""] :=
  split_empty 1 (by decide)

/-- C8: a non-positive limit always rejects, whatever the history. -/
theorem rate_limit_nonpositive_limit (now timeWindow : ℚ) (userId limit : Int)
    (m : RateLimits) (h : limit ≤ 0) :
    (check_rate_limit now userId limit timeWindow m).1 = false := by
  have hge : limit ≤
      (((m userId).filter (fun ts => decide (now - ts < timeWindow))).length : ℤ) :=
    le_trans h (Int.ofNat_nonneg _)
  simp [check_rate_limit, hge]

/-- Witness for `rate_limit_nonpositive_limit` at limit = 0 on an empty
history. -/
theorem rate_limit_nonpositive_limit_witness :
    (check_rate_limit 0 0 0 60 (fun _ => [])).1 = false :=
  rate_limit_nonpositive_limit 0 60 0 0 (fun _ => []) (by decide)

/-- C7: when the pruned history already reaches the limit, the check returns
false and the stored list for that identity afterwards equals the pruned
list: the rejected attempt is not recorded. -/
theorem rate_limit_reject_pruned (now timeWindow : ℚ) (userId limit : Int)
    (m : RateLimits)
    (h : limit ≤
      (((m userId).filter (fun ts => decide (now - ts < timeWindow))).length : ℤ)) :
    (check_rate_limit now userId limit timeWindow m).1 = false ∧
    (check_rate_limit now userId limit timeWindow m).2 userId =
      (m userId).filter (fun ts => decide (now - ts < timeWindow)) := by
  simp [check_rate_limit, h]

/-- Witness for `rate_limit_reject_pruned`: a user with three fresh
timestamps and limit 3 is rejected and the stored list is left pruned. -/
theorem rate_limit_reject_pruned_witness :
    (check_rate_limit 0 9 3 60 (fun _ => ([0, 0, 0] : List ℚ))).1 = false ∧
    (check_rate_limit 0 9 3 60 (fun _ => ([0, 0, 0] : List ℚ))).2 9 =
      ([0, 0, 0] : List ℚ).filter (fun ts => decide ((0 : ℚ) - ts < 60)) :=
  rate_limit_reject_pruned 0 60 9 3 (fun _ => ([0, 0, 0] : List ℚ)) (by norm_num)

/-- C6: after an admitted check the stored list for the identity has length
at most the limit, and the admission decision counts exactly the timestamps
still inside the trailing window (older entries are never counted). -/
theorem rate_limit_admission_invariant (now timeWindow : ℚ) (userId limit : Int)
    (m : RateLimits) :
    ((check_rate_limit now userId limit timeWindow m).1 = true →
      (((check_rate_limit now userId limit timeWindow m).2 userId).length : ℤ)
        ≤ limit) ∧
    ((check_rate_limit now userId limit timeWindow m).1 = true ↔
      ((((m userId).filter (fun ts => decide (now - ts < timeWindow))).length : ℤ)
        < limit)) := by
  by_cases h : limit ≤
      (((m userId).filter (fun ts => decide (now - ts < timeWindow))).length : ℤ)
  · constructor
    · intro htrue
      simp [check_rate_limit, h] at htrue
    · simp [check_rate_limit, h]
  · have hlt := lt_of_not_le h
    constructor
    · intro _
      simp [check_rate_limit, not_le.mpr hlt]
      omega
    · simp [check_rate_limit, not_le.mpr hlt]
      exact hlt

/-- Witness for `rate_limit_admission_invariant`: an admitted check on an
empty history with limit 3 stores at most 3 timestamps. -/
theorem rate_limit_admission_invariant_witness :
    (((check_rate_limit 0 9 3 60 (fun _ => [])).2 9).length : ℤ) ≤ 3 :=
  (rate_limit_admission_invariant 0 60 9 3 (fun _ => [])).1 (by decide)

/-- C4: with the primary rich mode Markdown and a transport rejecting the
first two attempts with formatting errors and succeeding on the third,
safe_send_message returns true after exactly three calls; the third call
carries no parse mode and the original text with every character of the set
asterisk, underscore, backquote, brackets and parentheses removed. -/
theorem safe_send_fallback_sequencing (text : String) :
    safe_send_message stubThirdOk true text (some "Markdown") =
      (some true,
       [⟨text, some "Markdown"⟩,
        ⟨sanitize_markdown text, some "MarkdownV2"⟩,
        ⟨⟨text.data.filter
            (fun c => decide (c ∉ ['*', '_', Char.ofNat 96, '[', ']', '(', ')']))⟩,
          none⟩]) := rfl

/-- C5: with the primary rich mode Markdown, a transport failing all three
tiers (formatting rejections on the first two, any failure on the plain
tier) makes safe_send_message return false after exactly three calls, and a
transport succeeding at any tier makes it return true at that tier. -/
theorem safe_send_hard_failure (text : String) (t u v w : Nat → SendOutcome)
    (ht0 : t 0 = SendOutcome.badRequest) (ht1 : t 1 = SendOutcome.badRequest)
    (ht2 : t 2 ≠ SendOutcome.success)
    (hu0 : u 0 = SendOutcome.success)
    (hv0 : v 0 = SendOutcome.badRequest) (hv1 : v 1 = SendOutcome.success)
    (hw0 : w 0 = SendOutcome.badRequest) (hw1 : w 1 = SendOutcome.badRequest)
    (hw2 : w 2 = SendOutcome.success) :
    ((safe_send_message t true text (some "Markdown")).1 = some false ∧
     (safe_send_message t true text (some "Markdown")).2.length = 3) ∧
    ((safe_send_message u true text (some "Markdown")).1 = some true ∧
     (safe_send_message u true text (some "Markdown")).2.length = 1) ∧
    ((safe_send_message v true text (some "Markdown")).1 = some true ∧
     (safe_send_message v true text (some "Markdown")).2.length = 2) ∧
    ((safe_send_message w true text (some "Markdown")).1 = some true ∧
     (safe_send_message w true text (some "Markdown")).2.length = 3) := by
  cases h2 : t 2 with
  | success => exact absurd h2 ht2
  | badRequest =>
      simp [safe_send_message, ht0, ht1, h2, hu0, hv0, hv1, hw0, hw1, hw2]
  | otherError =>
      simp [safe_send_message, ht0, ht1, h2, hu0, hv0, hv1, hw0, hw1, hw2]

/-- Witness for `safe_send_hard_failure` on the concrete transport stubs. -/
theorem safe_send_hard_failure_witness :
    ((safe_send_message stubAllFail true "x" (some "Markdown")).1 = some false ∧
     (safe_send_message stubAllFail true "x" (some "Markdown")).2.length = 3) ∧
    ((safe_send_message stubFirstOk true "x" (some "Markdown")).1 = some true ∧
     (safe_send_message stubFirstOk true "x" (some "Markdown")).2.length = 1) ∧
    ((safe_send_message stubSecondOk true "x" (some "Markdown")).1 = some true ∧
     (safe_send_message stubSecondOk true "x" (some "Markdown")).2.length = 2) ∧
    ((safe_send_message stubThirdOk true "x" (some "Markdown")).1 = some true ∧
     (safe_send_message stubThirdOk true "x" (some "Markdown")).2.length = 3) :=
  safe_send_hard_failure "x" stubAllFail stubFirstOk stubSecondOk stubThirdOk
    rfl rfl (by decide) rfl rfl rfl rfl rfl rfl

/-- A two-character separator that never occurs splits a text into the
single piece equal to the whole text. -/
theorem split2_not_mem (a b : Char) : ∀ (l : List Char), a ∉ l → split2 a b l = [l]
  | [], _ => rfl
  | [c], _ => rfl
  | c :: d :: rest, h => by
    have hca : ¬(c = a ∧ d = b) := by
      intro hcd
      exact h (hcd.1 ▸ List.mem_cons_self c (d :: rest))
    have ih := split2_not_mem a b (d :: rest) (fun hm => h (List.mem_cons_of_mem c hm))
    simp only [split2, if_neg hca, ih]

/-- Unfolding step of `chunksOfFuel` on a nonempty list. -/
lemma chunksOfFuel_pos (n fuel : Nat) (l : List Char) (hl : l ≠ []) :
    chunksOfFuel n (fuel + 1) l = l.take n :: chunksOfFuel n fuel (l.drop n) := by
  cases l with
  | nil => exact absurd rfl hl
  | cons x xs => rfl

/-- `chunksOfFuel` on the empty list yields no slices. -/
lemma chunksOfFuel_nil (n fuel : Nat) : chunksOfFuel n (fuel + 1) [] = [] := rfl

/-- A replicate of positive length is nonempty. -/
lemma replicate_char_ne_nil (k : Nat) (c : Char) (h : 0 < k) :
    List.replicate k c ≠ [] := by
  intro he
  rw [List.replicate_eq_nil_iff] at he
  omega

/-- Raw slicing of 10000 repeated characters at width 4000 gives slices of
4000, 4000 and 2000 characters. -/
lemma chunksOf_replicate_10000 :
    chunksOf 4000 (List.replicate 10000 'a')
      = [List.replicate 4000 'a', List.replicate 4000 'a', List.replicate 2000 'a'] := by
  unfold chunksOf
  rw [List.length_replicate]
  rw [show (10000 : Nat) = 9999 + 1 from rfl]
  rw [chunksOfFuel_pos _ _ _ (replicate_char_ne_nil _ _ (by norm_num))]
  rw [List.take_replicate, List.drop_replicate]
  rw [show min 4000 (9999 + 1) = 4000 from rfl, show (9999 + 1) - 4000 = 6000 from rfl]
  rw [show (9999 : Nat) = 9998 + 1 from rfl]
  rw [chunksOfFuel_pos _ _ _ (replicate_char_ne_nil _ _ (by norm_num))]
  rw [List.take_replicate, List.drop_replicate]
  rw [show min 4000 6000 = 4000 from rfl, show (6000 : Nat) - 4000 = 2000 from rfl]
  rw [show (9998 : Nat) = 9997 + 1 from rfl]
  rw [chunksOfFuel_pos _ _ _ (replicate_char_ne_nil _ _ (by norm_num))]
  rw [List.take_replicate, List.drop_replicate]
  rw [show min 4000 2000 = 2000 from rfl, show (2000 : Nat) - 4000 = 0 from rfl]
  rw [show (9997 : Nat) = 9996 + 1 from rfl]
  rw [show List.replicate 0 'a' = ([] : List Char) from rfl]
  rw [chunksOfFuel_nil]

/-- With an empty current chunk, an oversized paragraph is handed to the
sentence loop. -/
lemma paragraphStep_empty_over (maxLength : Nat) (chunks : List (List Char))
    (p : List Char) (h : p.length + 2 > maxLength) :
    paragraphStep maxLength (chunks, []) p
      = (split2 '.' ' ' p).foldl (sentenceStep maxLength p) (chunks, []) := by
  unfold paragraphStep
  simp [h]

/-- With an empty current chunk, an oversized sentence triggers the raw
slicing of the whole paragraph. -/
lemma sentenceStep_empty_over (maxLength : Nat) (chunks : List (List Char))
    (paragraph s : List Char) (h : s.length + 2 > maxLength) :
    sentenceStep maxLength paragraph (chunks, []) s
      = (chunks ++ chunksOf maxLength paragraph, []) := by
  unfold sentenceStep
  simp [h]

/-- The list-level splitter on 10000 repeated characters at width 4000. -/
lemma splitMessageL_rep :
    splitMessageL (List.replicate 10000 'a') 4000
      = [List.replicate 4000 'a', List.replicate 4000 'a', List.replicate 2000 'a'] := by
  have hnl : ('\n') ∉ List.replicate 10000 'a' := by
    intro hm
    exact absurd (List.eq_of_mem_replicate hm) (by decide)
  have hdot : ('.') ∉ List.replicate 10000 'a' := by
    intro hm
    exact absurd (List.eq_of_mem_replicate hm) (by decide)
  have hlen : (List.replicate 10000 'a').length + 2 > 4000 := by
    rw [List.length_replicate]
    norm_num
  unfold splitMessageL
  rw [List.length_replicate, if_neg (by norm_num)]
  rw [split2_not_mem _ _ _ hnl, List.foldl_cons, List.foldl_nil]
  rw [paragraphStep_empty_over _ _ _ hlen]
  rw [split2_not_mem _ _ _ hdot, List.foldl_cons, List.foldl_nil]
  rw [sentenceStep_empty_over _ _ _ _ hlen]
  rw [chunksOf_replicate_10000]
  rfl

/-- C9: a single paragraph of 10000 a characters with max_length 4000 and no
sentence delimiters produces exactly three chunks of lengths 4000, 4000 and
2000, in that order. -/
theorem tier_escalation :
    (split_message (String.mk (List.replicate 10000 'a')) 4000).map String.length
      = [4000, 4000, 2000] := by
  have hlen : ∀ (l : List Char), (String.mk l).length = l.length := fun _ => rfl
  unfold split_message
  rw [show (String.mk (List.replicate 10000 'a')).data = List.replicate 10000 'a' from rfl]
  rw [splitMessageL_rep]
  simp only [List.map_cons, List.map_nil, hlen, List.length_replicate]

/-- Splitting on a two-character separator always yields at least one piece
(Python `str.split` never returns an empty list). -/
theorem split2_ne_nil (a b : Char) : ∀ (l : List Char), split2 a b l ≠ []
  | [] => by simp [split2]
  | [c] => by simp [split2]
  | c :: d :: rest => by
    by_cases h : c = a ∧ d = b
    · simp [split2, h]
    · cases hs : split2 a b (d :: rest) with
      | nil => simp [split2, h, hs]
      | cons s ss => simp [split2, h, hs]

/-- Joining the pieces of a split with the same separator restores the
original text (`sep.join(text.split(sep)) == text`). -/
theorem join2_split2 (a b : Char) : ∀ (l : List Char), join2 a b (split2 a b l) = l
  | [] => rfl
  | [c] => rfl
  | c :: d :: rest => by
    by_cases h : c = a ∧ d = b
    · have ih := join2_split2 a b rest
      obtain ⟨h1, h2⟩ := h
      subst h1
      subst h2
      simp only [split2, if_pos (And.intro rfl rfl)]
      cases hs : split2 c d rest with
      | nil => exact absurd hs (split2_ne_nil c d rest)
      | cons s ss =>
        rw [hs] at ih
        show c :: d :: join2 c d (s :: ss) = c :: d :: rest
        rw [ih]
    · have ih := join2_split2 a b (d :: rest)
      cases hs : split2 a b (d :: rest) with
      | nil => exact absurd hs (split2_ne_nil a b (d :: rest))
      | cons s ss =>
        rw [hs] at ih
        simp only [split2, if_neg h, hs]
        cases ss with
        | nil =>
          simp only [join2] at ih ⊢
          rw [ih]
        | cons s2 ss2 =>
          simp only [join2] at ih ⊢
          rw [List.cons_append, ih]

/-- The text contributed by a list of paragraphs when each is preceded by
the blank-line separator. -/
def sepFlat (ps : List (List Char)) : List Char :=
  (ps.map (fun p => '\n' :: '\n' :: p)).flatten

/-- `sepFlat` on no paragraphs is empty. -/
lemma sepFlat_nil : sepFlat [] = [] := rfl

/-- `sepFlat` peels one separator-prefixed paragraph at a time. -/
lemma sepFlat_cons (p : List Char) (ps : List (List Char)) :
    sepFlat (p :: ps) = '\n' :: '\n' :: (p ++ sepFlat ps) := by
  simp [sepFlat]

/-- A blank-line join is the head followed by the separator-prefixed tail. -/
lemma join2_eq_sepFlat : ∀ (xs : List (List Char)) (x : List Char),
    join2 '\n' '\n' (x :: xs) = x ++ sepFlat xs
  | [], x => by simp [join2, sepFlat]
  | y :: ys, x => by
    have ih := join2_eq_sepFlat ys y
    simp only [join2, ih, sepFlat_cons]

/-- Appending one more piece to a nonempty join adds one separator. -/
lemma join2_snoc (a b : Char) : ∀ (cs : List (List Char)) (x : List Char),
    cs ≠ [] → join2 a b (cs ++ [x]) = join2 a b cs ++ a :: b :: x
  | [], _, h => absurd rfl h
  | [s], x, _ => by simp [join2]
  | s :: s2 :: ss, x, _ => by
    have ih := join2_snoc a b (s2 :: ss) x (by simp)
    rw [List.cons_append] at ih
    simp only [List.cons_append, List.append_eq, join2]
    rw [ih]
    simp [List.append_assoc]

/-- Extending the last piece of a join extends the joined text. -/
lemma join2_last_append (a b : Char) (cs : List (List Char)) (y z : List Char) :
    join2 a b (cs ++ [y ++ z]) = join2 a b (cs ++ [y]) ++ z := by
  cases cs with
  | nil => simp [join2]
  | cons c cs' =>
    rw [join2_snoc _ _ _ _ (by simp), join2_snoc _ _ _ _ (by simp)]
    simp [List.append_assoc]

/-- Overflow branch of the paragraph loop with a nonempty current chunk:
flush the chunk and restart from the incoming paragraph. -/
lemma paragraphStep_flush (maxLength : Nat) (chunks : List (List Char))
    (cur p : List Char) (h1 : cur.length + p.length + 2 > maxLength)
    (h2 : cur ≠ []) :
    paragraphStep maxLength (chunks, cur) p = (chunks ++ [cur], p) := by
  unfold paragraphStep
  simp [h1, h2]

/-- Accumulation branch of the paragraph loop with a nonempty current
chunk: append the separator and the paragraph. -/
lemma paragraphStep_acc (maxLength : Nat) (chunks : List (List Char))
    (cur p : List Char) (h1 : ¬(cur.length + p.length + 2 > maxLength))
    (h2 : cur ≠ []) :
    paragraphStep maxLength (chunks, cur) p
      = (chunks, cur ++ '\n' :: '\n' :: p) := by
  unfold paragraphStep
  simp [h1, h2]

/-- A fitting paragraph arriving at an empty current chunk simply becomes
the current chunk. -/
lemma paragraphStep_empty_fit (maxLength : Nat) (chunks : List (List Char))
    (p : List Char) (h : ¬(p.length + 2 > maxLength)) :
    paragraphStep maxLength (chunks, []) p = (chunks, p) := by
  unfold paragraphStep
  simp [h]

/-- A list with a nonempty prefix is nonempty. -/
lemma append_char_ne_nil (cur tail : List Char) (h : cur ≠ []) :
    cur ++ tail ≠ [] := by
  intro he
  rw [List.append_eq_nil] at he
  exact h he.1

/-- Invariant of the paragraph loop on nonempty fitting paragraphs: the
current chunk stays nonempty and the blank-line join of the accumulated
state extends by exactly the separator-prefixed paragraphs consumed. -/
lemma foldl_paragraph_round (maxLength : Nat) :
    ∀ (ps : List (List Char)) (chunks : List (List Char)) (cur : List Char),
      cur ≠ [] →
      (∀ p ∈ ps, p ≠ [] ∧ p.length + 2 ≤ maxLength) →
      (ps.foldl (paragraphStep maxLength) (chunks, cur)).2 ≠ [] ∧
      join2 '\n' '\n' ((ps.foldl (paragraphStep maxLength) (chunks, cur)).1
          ++ [(ps.foldl (paragraphStep maxLength) (chunks, cur)).2])
        = join2 '\n' '\n' (chunks ++ [cur]) ++ sepFlat ps
  | [], chunks, cur, hcur, _ => by
    simp [List.foldl_nil, sepFlat_nil, hcur]
  | p :: ps, chunks, cur, hcur, hps => by
    have hp := hps p (List.mem_cons_self p ps)
    have hrest : ∀ q ∈ ps, q ≠ [] ∧ q.length + 2 ≤ maxLength :=
      fun q hq => hps q (List.mem_cons_of_mem p hq)
    rw [List.foldl_cons]
    by_cases hc : cur.length + p.length + 2 > maxLength
    · rw [paragraphStep_flush maxLength chunks cur p hc hcur]
      have ih := foldl_paragraph_round maxLength ps (chunks ++ [cur]) p hp.1 hrest
      refine ⟨ih.1, ?_⟩
      rw [ih.2]
      rw [join2_snoc _ _ (chunks ++ [cur]) p (by simp)]
      rw [sepFlat_cons]
      simp [List.append_assoc]
    · rw [paragraphStep_acc maxLength chunks cur p hc hcur]
      have hcur' : cur ++ '\n' :: '\n' :: p ≠ [] :=
        append_char_ne_nil cur ('\n' :: '\n' :: p) hcur
      have ih := foldl_paragraph_round maxLength ps chunks
        (cur ++ '\n' :: '\n' :: p) hcur' hrest
      refine ⟨ih.1, ?_⟩
      rw [ih.2]
      rw [join2_last_append '\n' '\n' chunks cur ('\n' :: '\n' :: p)]
      rw [sepFlat_cons]
      simp [List.append_assoc]

/-- The accumulator recursion of `String.intercalate` agrees with `sepFlat`
on packed character lists. -/
lemma intercalate_go_mk : ∀ (as : List (List Char)) (acc : List Char),
    String.intercalate.go ⟨acc⟩ "\n\n" (as.map fun l => (⟨l⟩ : String))
      = ⟨acc ++ sepFlat as⟩
  | [], acc => by
    simp [String.intercalate.go, sepFlat_nil]
  | a :: as, acc => by
    have ih := intercalate_go_mk as (acc ++ '\n' :: '\n' :: a)
    simp only [List.map_cons, String.intercalate.go]
    rw [show ((⟨acc⟩ : String) ++ "\n\n" ++ ⟨a⟩) = (⟨acc ++ '\n' :: '\n' :: a⟩ : String) from
      congrArg String.mk (by simp)]
    rw [ih, sepFlat_cons]
    exact congrArg String.mk (by simp)

/-- `String.intercalate "\n\n"` over packed character lists is the
blank-line `join2`. -/
lemma intercalate_mk (ls : List (List Char)) :
    String.intercalate "\n\n" (ls.map fun l => (⟨l⟩ : String))
      = ⟨join2 '\n' '\n' ls⟩ := by
  cases ls with
  | nil => rfl
  | cons x xs =>
    simp only [List.map_cons, String.intercalate]
    rw [intercalate_go_mk xs x, join2_eq_sepFlat]

/-- C2 amended: for a text all of whose blank-line paragraphs are nonempty
and fit in the limit together with the 2-character separator (so only the
paragraph tier is used), joining the chunks of split_message with the
blank-line separator restores exactly the input text. -/
theorem split_round_trip (text : String) (maxLength : Nat)
    (hp : ∀ p ∈ split2 '\n' '\n' text.data,
      p ≠ [] ∧ p.length + 2 ≤ maxLength) :
    String.intercalate "\n\n" (split_message text maxLength) = text := by
  unfold split_message
  rw [intercalate_mk]
  by_cases hle : text.data.length ≤ maxLength
  · rw [show splitMessageL text.data maxLength = [text.data] from by
      unfold splitMessageL
      rw [if_pos hle]]
    show (⟨text.data⟩ : String) = text
    rfl
  · cases hps : split2 '\n' '\n' text.data with
    | nil => exact absurd hps (split2_ne_nil '\n' '\n' text.data)
    | cons p1 rest =>
      rw [hps] at hp
      have hp1 := hp p1 (List.mem_cons_self p1 rest)
      have hrest : ∀ q ∈ rest, q ≠ [] ∧ q.length + 2 ≤ maxLength :=
        fun q hq => hp q (List.mem_cons_of_mem p1 hq)
      have hfirst : paragraphStep maxLength ([], []) p1 = ([], p1) :=
        paragraphStep_empty_fit maxLength [] p1 (by simp; omega)
      have hfold := foldl_paragraph_round maxLength rest [] p1 hp1.1 hrest
      unfold splitMessageL
      rw [if_neg hle, hps, List.foldl_cons, hfirst]
      unfold finalize
      rw [if_neg hfold.1]
      rw [hfold.2]
      rw [show (([] : List (List Char)) ++ [p1]) = [p1] from rfl]
      rw [show join2 '\n' '\n' [p1] = p1 from rfl]
      rw [← join2_eq_sepFlat rest p1]
      rw [← hps, join2_split2]

/-- Witness for `split_round_trip` on a two-paragraph text with
max_length 7. -/
theorem split_round_trip_witness :
    String.intercalate "\n\n" (split_message "aaaa\n\nbbbb" 7) = "aaaa\n\nbbbb" :=
  split_round_trip "aaaa\n\nbbbb" 7 (by decide)

/-- Witness for `safe_send_fallback_sequencing` on a concrete marked-up
text. -/
theorem safe_send_fallback_sequencing_witness :
    safe_send_message stubThirdOk true "a*b" (some "Markdown") =
      (some true,
       [⟨"a*b", some "Markdown"⟩,
        ⟨sanitize_markdown "a*b", some "MarkdownV2"⟩,
        ⟨⟨("a*b").data.filter
            (fun c => decide (c ∉ ['*', '_', Char.ofNat 96, '[', ']', '(', ')']))⟩,
          none⟩]) :=
  safe_send_fallback_sequencing "a*b"
